import Mathlib

/-!
Verification of the UniHomes storage-node control plane.

The admin UI (`src/pages/AdminNodeManagerPage.jsx`, with a second variant under
`frontend/src/pages/AdminNodeManagerPage.jsx`) is embedded directly from the
JSX source.  The backing control plane (node registry, heartbeat monitor,
capacity aggregator, chunk distributor, lifecycle controller) ships as a
separate gRPC service whose Python sources are not part of this repository;
those operations are modelled from the specification, each such definition is
marked `Modelled from the spec:` in its doc comment.
-/

namespace UniHomes

/-! ## UI embedding: `AdminNodeManagerPage.jsx` -/

/-- A node object as the admin page receives it from `GET /api/admin/nodes`
(fields read by the JSX: `node_id`, `host`, `port`, `status`,
`storage_capacity`, `storage_used`, `chunk_count`, `health_score`,
`last_heartbeat`).  `status` is the free-form string the UI dispatches on. -/
structure NodeView where
  node_id : String
  host : String
  port : Nat
  status : String
  storage_capacity : Nat
  storage_used : Nat
  chunk_count : Nat
  health_score : Nat
  last_heartbeat : Option Nat
deriving DecidableEq, Repr

/-- The Total Capacity card of the first page variant:
`nodes.reduce((sum, n) => sum + n.storage_capacity, 0)`. -/
def totalCapacityDisplayed (nodes : List NodeView) : Nat :=
  nodes.foldl (fun sum n => sum + n.storage_capacity) 0

/-- The Online card tally: `nodes.filter((n) => n.status === "online").length`. -/
def onlineTally (nodes : List NodeView) : Nat :=
  (nodes.filter (fun n => n.status == "online")).length

/-- The Offline card tally: `nodes.filter((n) => n.status === "offline").length`. -/
def offlineTally (nodes : List NodeView) : Nat :=
  (nodes.filter (fun n => n.status == "offline")).length

/-- `getStatusColor`: green for `"online"`, red for everything else. -/
def getStatusColor (status : String) : String :=
  if status == "online" then "text-green-500" else "text-red-500"

/-- The two lucide icons `getStatusIcon` can render. -/
inductive StatusIcon where
  | Wifi
  | WifiOff
deriving DecidableEq, Repr

/-- `getStatusIcon`: the `Wifi` icon for `"online"`, `WifiOff` otherwise. -/
def getStatusIcon (status : String) : StatusIcon :=
  if status == "online" then StatusIcon.Wifi else StatusIcon.WifiOff

/-- The per-row action button the page offers. -/
inductive NodeAction where
  | start
  | stop
deriving DecidableEq, Repr

/-- The node-row action: `node.status === "offline" ? <Start button> : <Stop button>`. -/
def nodeActionButton (status : String) : NodeAction :=
  if status == "offline" then NodeAction.start else NodeAction.stop

/-- `const sizes = ["B", "KB", "MB", "GB", "TB"]` from `formatBytes`. -/
def sizes : List String := ["B", "KB", "MB", "GB", "TB"]

/-- Result of `formatBytes`: either the literal `"0 B"` early return, or the
template string `(bytes / 1024 ** i).toFixed(2) + " " + sizes[i]`, kept
structured as the hundredfold rounded value together with `sizes[i]`
(`none` when the index is out of range, JS `undefined`). -/
inductive BytesDisplay where
  | zeroB
  | scaled (centiValue : Nat) (unit : Option String)
deriving DecidableEq, Repr

/-- JS truthiness of the `bytes` argument: `0`, `null`, `undefined` and `NaN`
are falsy; `none` stands for the non-numeric falsy inputs. -/
def jsFalsy : Option Nat → Bool
  | none => true
  | some b => b == 0

/-- `(num / den).toFixed(2)` as an integer count of hundredths, rounding half
up over the exact rational. -/
def toFixed2 (num den : Nat) : Nat :=
  (num * 200 + den) / (den * 2)

/-- `formatBytes` from the page: the `if (!bytes) return "0 B"` guard, then
`i = Math.floor(Math.log(bytes) / Math.log(1024))` (the exact base-1024
logarithm floor, `Nat.log 1024`) and the scaled template string. -/
def formatBytes (bytes : Option Nat) : BytesDisplay :=
  if jsFalsy bytes then BytesDisplay.zeroB
  else
    let b := bytes.getD 0
    let i := Nat.log 1024 b
    BytesDisplay.scaled (toFixed2 (b * 100) (1024 ^ i * 100)) (sizes.get? i)

/-! ### The mount effect and its 5-second polling interval -/

/-- One pending `setInterval` registration: its id, period in milliseconds and
the name of the callback it invokes. -/
structure IntervalTimer where
  id : Nat
  periodMs : Nat
  callback : String
deriving DecidableEq, Repr

/-- The browser's interval table. -/
structure TimerState where
  nextId : Nat
  active : List IntervalTimer
deriving DecidableEq, Repr

/-- `setInterval(cb, ms)`: registers a fresh timer and returns its id. -/
def setIntervalJs (st : TimerState) (cb : String) (ms : Nat) : Nat × TimerState :=
  (st.nextId,
   { nextId := st.nextId + 1, active := st.active ++ [⟨st.nextId, ms, cb⟩] })

/-- `clearInterval(id)`: removes the timer with that id. -/
def clearIntervalJs (st : TimerState) (id : Nat) : TimerState :=
  { st with active := st.active.filter (fun t => t.id != id) }

/-- The `useEffect` body on mount:
`const interval = setInterval(loadNodes, 5000)` (it also invokes `loadNodes`
once immediately, which does not touch the timer table). -/
def adminNodeManagerMount (st : TimerState) : Nat × TimerState :=
  setIntervalJs st "loadNodes" 5000

/-- The `useEffect` cleanup on unmount: `clearInterval(interval)`. -/
def adminNodeManagerUnmount (st : TimerState) (intervalId : Nat) : TimerState :=
  clearIntervalJs st intervalId

/-! ### The delete-node client flow -/

/-- Occurrence of `pat` somewhere in `l` (helper for JS `String.includes`). -/
def subOccurs : List Char → List Char → Bool
  | [], pat => pat.isEmpty
  | c :: rest, pat => pat.isPrefixOf (c :: rest) || subOccurs rest pat

/-- JS `message.includes(pat)`. -/
def strContains (s pat : String) : Bool :=
  subOccurs s.data pat.data

/-- The retry test in `handleDeleteNode`:
`data.message && data.message.includes("contains") && !force` decides whether
the client offers the force-delete confirmation and retries. -/
def shouldOfferForceRetry (message : String) (force : Bool) : Bool :=
  strContains message "contains" && !force

/-- The DELETE url built by `handleDeleteNode`:
`/api/admin/nodes/${nodeId}${force ? "?force=true" : ""}`. -/
def deleteUrl (nodeId : String) (force : Bool) : String :=
  "/api/admin/nodes/" ++ nodeId ++ (if force then "?force=true" else "")

/-! ## Control plane, modelled from the spec

The gRPC backend (node registry, heartbeat monitor, capacity aggregator,
chunk distributor, lifecycle controller — `node_manager.py`,
`chunk_distributor.py` per the repository README) is not part of this
repository's sources; the definitions below are modelled from the
specification's data model and component design. -/

/-- Modelled from the spec: node status, `status ∈ {created, online, offline}`. -/
inductive NodeStatus where
  | created
  | online
  | offline
deriving DecidableEq, Repr

/-- Modelled from the spec: the registry's node descriptor. -/
structure Node where
  node_id : String
  host : String
  port : Nat
  status : NodeStatus
  storage_capacity_bytes : Nat
  storage_used_bytes : Nat
  chunk_count : Nat
  health_score : Nat
  last_heartbeat_at : Option Nat
  created_at : Nat
deriving DecidableEq, Repr

/-- Modelled from the spec: a chunk placement record (`chunk_id`, owning
`file_id`, ordered list of replica node ids, `size_bytes`). -/
structure ChunkRecord where
  chunk_id : String
  file_id : String
  replicas : List String
  size_bytes : Nat
deriving DecidableEq, Repr

/-- Modelled from the spec: the shared state the registry and chunk metadata
live in. -/
structure SystemState where
  nodes : List Node
  chunks : List ChunkRecord
deriving DecidableEq, Repr

/-- Modelled from the spec: the error taxonomy of section 7. -/
inductive RegistryError where
  | DuplicateNodeError (id : String)
  | NodeNotFoundError (id : String)
  | NodeNotEmptyError (id : String) (chunkCount : Nat)
  | InsufficientCapacityError
deriving DecidableEq, Repr

/-- Modelled from the spec: the synchronous failure message returned to the
caller; a blocked delete must name the node and its `chunk_count` and carry
enough detail for the client's `includes("contains")` test to detect the
non-empty condition. -/
def errorMessage : RegistryError → String
  | RegistryError.DuplicateNodeError id => "Node " ++ id ++ " already exists"
  | RegistryError.NodeNotFoundError id => "Node " ++ id ++ " not found"
  | RegistryError.NodeNotEmptyError id c =>
      "Node " ++ id ++ " contains " ++ toString c ++
        " chunks; retry with force=true to delete them"
  | RegistryError.InsufficientCapacityError => "Insufficient capacity to place chunk"

/-- Modelled from the spec: registry lookup by `node_id`. -/
def findNode (s : SystemState) (id : String) : Option Node :=
  s.nodes.find? (fun n => n.node_id == id)

/-- Modelled from the spec: `Get(id) -> Node | NodeNotFoundError`. -/
def getNode (s : SystemState) (id : String) : Except RegistryError Node :=
  match findNode s id with
  | some n => Except.ok n
  | none => Except.error (RegistryError.NodeNotFoundError id)

/-- Modelled from the spec: derived capacity metrics. -/
structure CapacityMetrics where
  total_capacity : Nat
  usable_capacity : Nat
  online_nodes : Nat
  offline_nodes : Nat
deriving DecidableEq, Repr

/-- Modelled from the spec:
`total_capacity = Σ storage_capacity_bytes over all nodes regardless of status`. -/
def totalCapacity (nodes : List Node) : Nat :=
  (nodes.map (fun n => n.storage_capacity_bytes)).sum

/-- Modelled from the spec:
`usable_capacity = Σ storage_capacity_bytes over nodes with status == online`. -/
def usableCapacity (nodes : List Node) : Nat :=
  ((nodes.filter (fun n => n.status == NodeStatus.online)).map
    (fun n => n.storage_capacity_bytes)).sum

/-- Modelled from the spec: `online_nodes`, `offline_nodes` counts. -/
def onlineNodeCount (nodes : List Node) : Nat :=
  (nodes.filter (fun n => n.status == NodeStatus.online)).length

/-- Modelled from the spec: count of offline nodes. -/
def offlineNodeCount (nodes : List Node) : Nat :=
  (nodes.filter (fun n => n.status == NodeStatus.offline)).length

/-- Modelled from the spec: `Recompute() -> CapacityMetrics`, a pure function
over the current registry snapshot. -/
def recompute (nodes : List Node) : CapacityMetrics :=
  ⟨totalCapacity nodes, usableCapacity nodes,
   onlineNodeCount nodes, offlineNodeCount nodes⟩

/-- Modelled from the spec: removing a node from the registry. -/
def removeNode (nodes : List Node) (id : String) : List Node :=
  nodes.filter (fun n => n.node_id != id)

/-- Modelled from the spec: force-delete purges the chunk metadata owned
solely by the deleted node — the node is dropped from every replica list and
records left with no surviving replica are discarded. -/
def purgeChunksOfNode (chunks : List ChunkRecord) (id : String) : List ChunkRecord :=
  (chunks.map (fun c => { c with replicas := c.replicas.filter (fun r => r != id) })).filter
    (fun c => !c.replicas.isEmpty)

/-- Modelled from the spec: `DeleteNode(id, force)`.  Unknown node fails with
`NodeNotFoundError`; `chunk_count > 0` with `force == false` fails with
`NodeNotEmptyError` leaving all state unchanged; otherwise the node is removed
from the registry (an online node is implicitly stopped first, which the final
removal subsumes) and its solely-owned chunk metadata purged.  The state is
returned alongside the optional error, so a rejection returning the input
state unchanged is part of the statement. -/
def deleteNode (s : SystemState) (id : String) (force : Bool) :
    SystemState × Option RegistryError :=
  match findNode s id with
  | none => (s, some (RegistryError.NodeNotFoundError id))
  | some n =>
      if n.chunk_count > 0 && !force then
        (s, some (RegistryError.NodeNotEmptyError id n.chunk_count))
      else
        ({ nodes := removeNode s.nodes id, chunks := purgeChunksOfNode s.chunks id },
         none)

/-- Modelled from the spec: `CreateNode` registers a fresh descriptor in
`created` status (duplicate ids rejected without mutating state). -/
def createNode (s : SystemState) (id host : String) (port capacityBytes nowMs : Nat) :
    SystemState × Option RegistryError :=
  if s.nodes.any (fun n => n.node_id == id) then
    (s, some (RegistryError.DuplicateNodeError id))
  else
    ({ s with nodes := s.nodes ++
        [{ node_id := id, host := host, port := port, status := NodeStatus.created,
           storage_capacity_bytes := capacityBytes, storage_used_bytes := 0,
           chunk_count := 0, health_score := 0, last_heartbeat_at := none,
           created_at := nowMs }] },
     none)

/-- Modelled from the spec: `StartNode(id, host, port, capacity_bytes)` is an
idempotent re-confirmation of connection parameters — it mutates no descriptor
field and in particular does not flip status to online (only a received
heartbeat does); unknown node fails with `NodeNotFoundError`. -/
def startNode (s : SystemState) (id host : String) (port capacityBytes : Nat) :
    SystemState × Option RegistryError :=
  match findNode s id with
  | none => (s, some (RegistryError.NodeNotFoundError id))
  | some _ => (s, none)

/-- Modelled from the spec: `StopNode(id)` transitions the node to offline
regardless of heartbeat state; chunk metadata is retained. -/
def stopNode (s : SystemState) (id : String) : SystemState × Option RegistryError :=
  match findNode s id with
  | none => (s, some (RegistryError.NodeNotFoundError id))
  | some _ =>
      ({ s with nodes := s.nodes.map (fun n =>
          if n.node_id == id then { n with status := NodeStatus.offline } else n) },
       none)

/-- Modelled from the spec: `OnHeartbeat(node_id)` — unknown node is rejected;
otherwise `last_heartbeat_at` is set to now and the node becomes online (the
only transition into online in the whole model). -/
def onHeartbeat (s : SystemState) (id : String) (nowMs : Nat) :
    SystemState × Option RegistryError :=
  match findNode s id with
  | none => (s, some (RegistryError.NodeNotFoundError id))
  | some _ =>
      ({ s with nodes := s.nodes.map (fun n =>
          if n.node_id == id then
            { n with status := NodeStatus.online, last_heartbeat_at := some nowMs }
          else n) },
       none)

/-- Modelled from the spec: default heartbeat interval, 30 s. -/
def heartbeatIntervalMs : Nat := 30000

/-- Modelled from the spec: default heartbeat timeout, 60 s = 2 × interval. -/
def heartbeatTimeoutMs : Nat := 60000

/-- Modelled from the spec: the sweep's fixed tick, 10 s. -/
def sweepTickMs : Nat := 10000

/-- Modelled from the spec: an online node whose heartbeat is older than the
timeout (`now - last_heartbeat_at > timeout`; a node that somehow never beat
counts from 0). -/
def isStale (nowMs timeoutMs : Nat) (n : Node) : Bool :=
  n.status == NodeStatus.online &&
    decide (timeoutMs < nowMs - (n.last_heartbeat_at.getD 0))

/-- Modelled from the spec: the sweep's per-node action — flip stale online
nodes to offline, touch nothing else. -/
def sweepNode (nowMs timeoutMs : Nat) (n : Node) : Node :=
  if isStale nowMs timeoutMs n then { n with status := NodeStatus.offline } else n

/-- Modelled from the spec: the background sweep over the whole registry.  It
is an internal transition: its type returns no error and takes no caller
input beyond the clock. -/
def sweep (nowMs timeoutMs : Nat) (s : SystemState) : SystemState :=
  { s with nodes := s.nodes.map (sweepNode nowMs timeoutMs) }

/-- Modelled from the spec: one sweep tick flips stale nodes offline and
triggers a capacity recompute over the new registry snapshot. -/
def sweepTick (nowMs : Nat) (s : SystemState) : SystemState × CapacityMetrics :=
  let s' := sweep nowMs heartbeatTimeoutMs s
  (s', recompute s'.nodes)

/-! ### Chunk distributor, modelled from the spec -/

/-- Modelled from the spec: a node's free space,
`storage_capacity_bytes - storage_used_bytes`. -/
def freeBytes (n : Node) : Nat :=
  n.storage_capacity_bytes - n.storage_used_bytes

/-- Modelled from the spec: placement candidates are online nodes with
`free ≥ size_bytes`. -/
def eligibleFor (sizeBytes : Nat) (n : Node) : Bool :=
  n.status == NodeStatus.online && decide (sizeBytes ≤ freeBytes n)

/-- Lexicographic order on UTF-8 character sequences (JS string comparison of
node ids). -/
def charListLt : List Char → List Char → Bool
  | _, [] => false
  | [], _ :: _ => true
  | a :: as, b :: bs =>
      decide (a.toNat < b.toNat) || (a.toNat == b.toNat && charListLt as bs)

/-- Ascending `node_id` comparison used for the deterministic tie-break. -/
def idLt (a b : String) : Bool :=
  charListLt a.data b.data

/-- Modelled from the spec: the ranking — `health_score` descending, then
free-capacity-fraction descending (fractions compared by cross-multiplying
`free/capacity`), ties broken by ascending `node_id`. -/
def ranksBefore (a b : Node) : Bool :=
  decide (b.health_score < a.health_score) ||
    (a.health_score == b.health_score &&
      (decide (freeBytes b * a.storage_capacity_bytes <
               freeBytes a * b.storage_capacity_bytes) ||
        (freeBytes a * b.storage_capacity_bytes ==
           freeBytes b * a.storage_capacity_bytes && idLt a.node_id b.node_id)))

/-- The total preorder fed to the sort: `a` may come before `b` unless `b`
strictly outranks `a`. -/
def rankLE (a b : Node) : Bool :=
  !(ranksBefore b a)

/-- Modelled from the spec:
`PlaceChunk(size_bytes, replication_factor) -> []NodeId | InsufficientCapacityError`:
filter to eligible candidates, sort by the ranking, take the top
`replication_factor`; fail when fewer eligible nodes exist. -/
def placeChunk (s : SystemState) (sizeBytes replicationFactor : Nat) :
    Except RegistryError (List String) :=
  let candidates := s.nodes.filter (eligibleFor sizeBytes)
  if candidates.length < replicationFactor then
    Except.error RegistryError.InsufficientCapacityError
  else
    Except.ok (((candidates.mergeSort rankLE).take replicationFactor).map
      (fun n => n.node_id))

/-! ### The lifecycle controller's operations as one step relation -/

/-- Modelled from the spec: the operations that can touch the registry; the
lifecycle controller mediates all of them, the sweep and heartbeats arrive on
their own workers. -/
inductive AdminOp where
  | create (id host : String) (port capacityBytes nowMs : Nat)
  | start (id host : String) (port capacityBytes : Nat)
  | stop (id : String)
  | delete (id : String) (force : Bool)
  | heartbeat (id : String) (nowMs : Nat)
  | sweepAt (nowMs : Nat)
deriving DecidableEq, Repr

/-- Modelled from the spec: one step of the control plane. -/
def applyOp (s : SystemState) : AdminOp → SystemState × Option RegistryError
  | AdminOp.create id host port cap now => createNode s id host port cap now
  | AdminOp.start id host port cap => startNode s id host port cap
  | AdminOp.stop id => stopNode s id
  | AdminOp.delete id force => deleteNode s id force
  | AdminOp.heartbeat id now => onHeartbeat s id now
  | AdminOp.sweepAt now => (sweep now heartbeatTimeoutMs s, none)

/-- Whether a step is a heartbeat receipt. -/
def isHeartbeatOp : AdminOp → Bool
  | AdminOp.heartbeat _ _ => true
  | _ => false

/-! ## Sample data used by the witnesses -/

/-- A `created` node as the UI would list it. -/
def nvA : NodeView :=
  ⟨"node1", "localhost", 9001, "created", 2, 0, 0, 0, none⟩

/-- An `online` node as the UI would list it. -/
def nvB : NodeView :=
  ⟨"node2", "localhost", 9002, "online", 3, 1, 1, 100, some 5⟩

/-- An online registry node holding three chunks. -/
def sampleNodeA : Node :=
  ⟨"node1", "localhost", 9001, NodeStatus.online, 2048, 100, 3, 90, some 1000, 0⟩

/-- An online registry node holding no chunks. -/
def sampleNodeB : Node :=
  ⟨"node2", "localhost", 9002, NodeStatus.online, 4096, 0, 0, 100, some 2000, 0⟩

/-- A two-node control-plane state with one chunk record solely on `node1`. -/
def sampleState : SystemState :=
  ⟨[sampleNodeA, sampleNodeB], [⟨"chunk1", "file1", ["node1"], 64⟩]⟩

/-! ## Helper lemmas -/

theorem totalCapacityDisplayed_eq_sum (nodes : List NodeView) :
    totalCapacityDisplayed nodes = (nodes.map (fun n => n.storage_capacity)).sum := by
  have aux : ∀ (l : List NodeView) (a : Nat),
      l.foldl (fun sum n => sum + n.storage_capacity) a =
        a + (l.map (fun n => n.storage_capacity)).sum := by
    intro l
    induction l with
    | nil => intro a; simp
    | cons x xs ih =>
        intro a
        simp only [List.foldl_cons, List.map_cons, List.sum_cons, ih]
        omega
  simpa [totalCapacityDisplayed] using aux nodes 0

theorem usableCapacity_le_totalCapacity (nodes : List Node) :
    usableCapacity nodes ≤ totalCapacity nodes := by
  induction nodes with
  | nil => simp [usableCapacity, totalCapacity]
  | cons x xs ih =>
      simp only [usableCapacity, totalCapacity] at ih ⊢
      cases h : (x.status == NodeStatus.online) with
      | true =>
          simp [List.filter_cons, h, List.map_cons, List.sum_cons]
          omega
      | false =>
          simp [List.filter_cons, h, List.map_cons, List.sum_cons]
          omega

/-! ## Claims -/

/-- C1: for every list of (non-deleted) nodes the UI receives, the displayed
total capacity is the sum of `storage_capacity` over all nodes regardless of
each node's status — rewriting every status (created and offline included)
leaves the figure unchanged, and only removing a node from the list lowers it,
by exactly that node's capacity. -/
theorem claim_C1_total_capacity_status_independent
    (nodes : List NodeView) (g : NodeView → String) (n : NodeView) (hmem : n ∈ nodes) :
    totalCapacityDisplayed nodes = (nodes.map (fun m => m.storage_capacity)).sum
    ∧ totalCapacityDisplayed (nodes.map (fun m => { m with status := g m })) =
        totalCapacityDisplayed nodes
    ∧ totalCapacityDisplayed (nodes.erase n) + n.storage_capacity =
        totalCapacityDisplayed nodes := by
  refine ⟨totalCapacityDisplayed_eq_sum nodes, ?_, ?_⟩
  · rw [totalCapacityDisplayed_eq_sum, totalCapacityDisplayed_eq_sum, List.map_map]
    rfl
  · have hperm : nodes.Perm (n :: nodes.erase n) := List.perm_cons_erase hmem
    rw [totalCapacityDisplayed_eq_sum, totalCapacityDisplayed_eq_sum,
      (hperm.map (fun m => m.storage_capacity)).sum_eq, List.map_cons, List.sum_cons]
    omega

theorem claim_C1_total_capacity_status_independent_witness :
    nvA ∈ [nvA, nvB]
    ∧ totalCapacityDisplayed [nvA, nvB] =
        ([nvA, nvB].map (fun m => m.storage_capacity)).sum :=
  ⟨by decide,
   (claim_C1_total_capacity_status_independent [nvA, nvB] (fun _ => "offline") nvA
      (by decide)).1⟩

/-- C4: usable capacity is the capacity sum over exactly the online nodes, and
it never exceeds total capacity. -/
theorem claim_C4_usable_capacity (nodes : List Node) :
    (recompute nodes).usable_capacity =
      ((nodes.filter (fun n => n.status == NodeStatus.online)).map
        (fun n => n.storage_capacity_bytes)).sum
    ∧ (recompute nodes).usable_capacity ≤ (recompute nodes).total_capacity :=
  ⟨rfl, usableCapacity_le_totalCapacity nodes⟩

/-- C9, counterexample: a node whose status string is `"offline"` has a
status other than `"online"`, yet the page counts it in the Offline tally —
so "counts it in neither the Online tally nor the Offline tally" fails for
nodes that are merely not online. -/
theorem claim_C9_counterexample :
    (NodeView.mk "node3" "localhost" 9003 "offline" 1 0 0 0 none).status ≠ "online"
    ∧ offlineTally [NodeView.mk "node3" "localhost" 9003 "offline" 1 0 0 0 none] = 1 := by
  constructor
  · decide
  · rfl

/-- C9, amended: every node whose status is not `"online"` — `"created"`
included — is rendered with the offline icon and styling and is not counted in
the Online tally; it is counted in the Offline tally exactly when its status
is `"offline"`; the Start action is offered exactly when the status equals
`"offline"`, so a node in state `"created"` is offered Stop. -/
theorem claim_C9_non_online_rendering (n : NodeView) (h : n.status ≠ "online") :
    getStatusColor n.status = "text-red-500"
    ∧ getStatusIcon n.status = StatusIcon.WifiOff
    ∧ onlineTally [n] = 0
    ∧ (offlineTally [n] = 1 ↔ n.status = "offline")
    ∧ (n.status ≠ "offline" → offlineTally [n] = 0)
    ∧ (nodeActionButton n.status = NodeAction.start ↔ n.status = "offline")
    ∧ (n.status = "created" → nodeActionButton n.status = NodeAction.stop) := by
  have hb : (n.status == "online") = false := by
    simpa using h
  refine ⟨?_, ?_, ?_, ?_, ?_, ?_, ?_⟩
  · simp [getStatusColor, hb]
  · simp [getStatusIcon, hb]
  · simp [onlineTally, List.filter_cons, hb]
  · by_cases h2 : n.status = "offline"
    · simp [offlineTally, List.filter_cons, h2]
    · have hb2 : (n.status == "offline") = false := by simpa using h2
      simp [offlineTally, List.filter_cons, hb2, h2]
  · intro h2
    have hb2 : (n.status == "offline") = false := by simpa using h2
    simp [offlineTally, List.filter_cons, hb2]
  · constructor
    · intro ha
      by_contra hne
      have hb2 : (n.status == "offline") = false := by simpa using hne
      simp [nodeActionButton, hb2] at ha
    · intro ha
      simp [nodeActionButton, ha]
  · intro hc
    rw [hc]
    decide

theorem claim_C9_non_online_rendering_witness :
    nvA.status ≠ "online" ∧ getStatusColor nvA.status = "text-red-500" :=
  ⟨by decide, (claim_C9_non_online_rendering nvA (by decide)).1⟩

/-- C10: `formatBytes` returns `"0 B"` for every falsy input (0, null,
undefined, NaN); for every `bytes ≥ 1` it returns `bytes / 1024 ^ i` to two
decimals with unit `sizes[i]` where `i = ⌊log bytes / log 1024⌋`; the unit is
a defined entry of `[B, KB, MB, GB, TB]` exactly when `bytes < 1024 ^ 5`, so
from one pebibyte upward the unit is JS `undefined`. -/
theorem claim_C10_formatBytes (b : Nat) (hb : 1 ≤ b) :
    formatBytes none = BytesDisplay.zeroB
    ∧ formatBytes (some 0) = BytesDisplay.zeroB
    ∧ formatBytes (some b) =
        BytesDisplay.scaled (toFixed2 (b * 100) (1024 ^ Nat.log 1024 b * 100))
          (sizes.get? (Nat.log 1024 b))
    ∧ ((sizes.get? (Nat.log 1024 b)).isSome ↔ b < 1024 ^ 5)
    ∧ (1024 ^ 5 ≤ b → formatBytes (some b) =
        BytesDisplay.scaled (toFixed2 (b * 100) (1024 ^ Nat.log 1024 b * 100)) none) := by
  have hb0 : b ≠ 0 := by omega
  have hfalsy : jsFalsy (some b) = false := by
    simp [jsFalsy, hb0]
  have hlog : 5 ≤ Nat.log 1024 b ↔ 1024 ^ 5 ≤ b :=
    (Nat.pow_le_iff_le_log (by norm_num) hb0).symm
  have hunit : sizes.get? (Nat.log 1024 b) = none ↔ 1024 ^ 5 ≤ b := by
    rw [List.get?_eq_none]
    show 5 ≤ Nat.log 1024 b ↔ _
    exact hlog
  refine ⟨rfl, rfl, ?_, ?_, ?_⟩
  · simp [formatBytes, hfalsy]
  · rw [← Decidable.not_iff_not]
    simp only [Option.not_isSome_iff_eq_none, not_lt]
    exact hunit
  · intro hbig
    simp only [formatBytes, hfalsy, Bool.false_eq_true, if_false, Option.getD_some,
      hunit.mpr hbig]

theorem claim_C10_formatBytes_witness :
    1 ≤ 2
    ∧ formatBytes (some 2) =
        BytesDisplay.scaled (toFixed2 (2 * 100) (1024 ^ Nat.log 1024 2 * 100))
          (sizes.get? (Nat.log 1024 2)) :=
  ⟨by decide, (claim_C10_formatBytes 2 (by decide)).2.2.1⟩

/-- C8: mounting the admin node-manager page installs an interval of exactly
5000 ms whose callback is `loadNodes`, and unmounting clears exactly that
interval, restoring the previously active timers. -/
theorem claim_C8_polling_interval (st : TimerState)
    (hfresh : ∀ t ∈ st.active, t.id < st.nextId) :
    (adminNodeManagerMount st).2.active =
      st.active ++ [⟨st.nextId, 5000, "loadNodes"⟩]
    ∧ (⟨(adminNodeManagerMount st).1, 5000, "loadNodes"⟩ : IntervalTimer) ∈
        (adminNodeManagerMount st).2.active
    ∧ (adminNodeManagerUnmount (adminNodeManagerMount st).2
        (adminNodeManagerMount st).1).active = st.active := by
  refine ⟨rfl, ?_, ?_⟩
  · simp [adminNodeManagerMount, setIntervalJs]
  · show ((st.active ++ [(⟨st.nextId, 5000, "loadNodes"⟩ : IntervalTimer)]).filter
      (fun t => t.id != st.nextId)) = st.active
    rw [List.filter_append]
    have h1 : st.active.filter (fun t => t.id != st.nextId) = st.active := by
      apply List.filter_eq_self.mpr
      intro t ht
      have : t.id ≠ st.nextId := Nat.ne_of_lt (hfresh t ht)
      simpa using this
    have h2 : ([(⟨st.nextId, 5000, "loadNodes"⟩ : IntervalTimer)].filter
        (fun t => t.id != st.nextId)) = [] := by
      simp
    rw [h1, h2, List.append_nil]

theorem claim_C8_polling_interval_witness :
    (adminNodeManagerUnmount (adminNodeManagerMount (⟨0, []⟩ : TimerState)).2
        (adminNodeManagerMount (⟨0, []⟩ : TimerState)).1).active = [] :=
  (claim_C8_polling_interval (⟨0, []⟩ : TimerState) (by simp)).2.2

theorem subOccurs_of_isPrefixOf {l pat : List Char} (h : pat.isPrefixOf l = true) :
    subOccurs l pat = true := by
  cases l with
  | nil =>
      cases pat with
      | nil => rfl
      | cons c cs => simp [List.isPrefixOf] at h
  | cons c rest => simp [subOccurs, h]

theorem subOccurs_append (x pat y : List Char) :
    subOccurs (x ++ (pat ++ y)) pat = true := by
  induction x with
  | nil =>
      apply subOccurs_of_isPrefixOf
      rw [List.nil_append]
      exact List.isPrefixOf_iff_prefix.mpr (List.prefix_append pat y)
  | cons c cs ih =>
      simp [subOccurs, ih]

theorem strContains_of_data (s pat : String) (x y : List Char)
    (h : s.data = x ++ (pat.data ++ y)) : strContains s pat = true := by
  unfold strContains
  rw [h]
  exact subOccurs_append x pat.data y

/-- The blocked-delete message does contain the token the client's
`includes("contains")` test looks for, whatever the node id and count. -/
theorem nodeNotEmpty_message_contains (id : String) (c : Nat) :
    strContains (errorMessage (RegistryError.NodeNotEmptyError id c)) "contains" = true := by
  apply strContains_of_data _ _
    ("Node ".data ++ id.data ++ [' '])
    ([' '] ++ (toString c).data ++ " chunks; retry with force=true to delete them".data)
  show ("Node " ++ id ++ " contains " ++ toString c ++
      " chunks; retry with force=true to delete them").data = _
  simp [String.data_append, List.append_assoc]

/-- C2: deleting an existing node that still holds chunks, without force,
returns `NodeNotEmptyError`, leaves the whole state (registry, chunk metadata,
derived capacity metrics) unchanged, the failure message names the node and
its chunk count and trips the client's retry test, which retries only on such
a message and only when not already forcing, with `?force=true` appended to
the same URL. -/
theorem claim_C2_delete_nonempty_blocked (s : SystemState) (id : String) (n : Node)
    (hfind : findNode s id = some n) (hc : 0 < n.chunk_count) :
    deleteNode s id false =
      (s, some (RegistryError.NodeNotEmptyError id n.chunk_count))
    ∧ errorMessage (RegistryError.NodeNotEmptyError id n.chunk_count) =
        "Node " ++ id ++ " contains " ++ toString n.chunk_count ++
          " chunks; retry with force=true to delete them"
    ∧ recompute (deleteNode s id false).1.nodes = recompute s.nodes
    ∧ (deleteNode s id false).1.chunks = s.chunks
    ∧ shouldOfferForceRetry
        (errorMessage (RegistryError.NodeNotEmptyError id n.chunk_count)) false = true
    ∧ shouldOfferForceRetry
        (errorMessage (RegistryError.NodeNotEmptyError id n.chunk_count)) true = false
    ∧ shouldOfferForceRetry (errorMessage (RegistryError.NodeNotFoundError "node9")) false
        = false
    ∧ deleteUrl id true = deleteUrl id false ++ "?force=true" := by
  have hdel : deleteNode s id false =
      (s, some (RegistryError.NodeNotEmptyError id n.chunk_count)) := by
    unfold deleteNode
    rw [hfind]
    simp [hc]
  refine ⟨hdel, rfl, ?_, ?_, ?_, ?_, ?_, ?_⟩
  · rw [hdel]
  · rw [hdel]
  · simp [shouldOfferForceRetry, nodeNotEmpty_message_contains]
  · simp [shouldOfferForceRetry]
  · simp only [shouldOfferForceRetry, Bool.not_false, Bool.and_true]
    decide
  · simp [deleteUrl, String.append_empty]

theorem claim_C2_delete_nonempty_blocked_witness :
    findNode sampleState "node1" = some sampleNodeA
    ∧ 0 < sampleNodeA.chunk_count
    ∧ deleteNode sampleState "node1" false =
        (sampleState,
         some (RegistryError.NodeNotEmptyError "node1" sampleNodeA.chunk_count)) :=
  ⟨by decide, by decide,
   (claim_C2_delete_nonempty_blocked sampleState "node1" sampleNodeA
      (by decide) (by decide)).1⟩

/-- With unique node ids, removing a found node is a permutation-exact
removal of that one descriptor. -/
theorem perm_cons_removeNode (nodes : List Node) (id : String) (n : Node)
    (hfind : nodes.find? (fun m => m.node_id == id) = some n)
    (hnodup : (nodes.map (fun m => m.node_id)).Nodup) :
    nodes.Perm (n :: removeNode nodes id) := by
  induction nodes with
  | nil => simp at hfind
  | cons a rest ih =>
      rw [List.find?_cons] at hfind
      simp only [List.map_cons, List.nodup_cons] at hnodup
      cases ha : (a.node_id == id) with
      | true =>
          rw [ha] at hfind
          injection hfind with hfind
          subst hfind
          have haid : a.node_id = id := by simpa using ha
          have hrest : removeNode rest id = rest := by
            apply List.filter_eq_self.mpr
            intro m hm
            have hne : m.node_id ≠ a.node_id := fun h =>
              hnodup.1 (h ▸ List.mem_map_of_mem (fun m => m.node_id) hm)
            have hne' : m.node_id ≠ id := by rw [← haid]; exact hne
            simpa using hne'
          have hrm : removeNode (a :: rest) id = rest := by
            unfold removeNode at hrest ⊢
            simp [List.filter_cons, haid, hrest]
          rw [hrm]
      | false =>
          rw [ha] at hfind
          have hperm := ih hfind hnodup.2
          have hane : a.node_id ≠ id := by simpa using ha
          have hrm : removeNode (a :: rest) id = a :: removeNode rest id := by
            unfold removeNode
            simp [List.filter_cons, hane]
          rw [hrm]
          exact (hperm.cons a).trans (List.Perm.swap n a _)

/-- C3: force-deleting an existing node always succeeds whatever its
`chunk_count`: no error is returned, a subsequent `Get` fails with
`NodeNotFoundError`, total capacity drops by exactly the node's capacity, the
deleted node survives in no replica list, and every chunk record it solely
owned is purged. -/
theorem claim_C3_force_delete (s : SystemState) (id : String) (n : Node)
    (hfind : findNode s id = some n)
    (hnodup : (s.nodes.map (fun m => m.node_id)).Nodup) :
    (deleteNode s id true).2 = none
    ∧ getNode (deleteNode s id true).1 id =
        Except.error (RegistryError.NodeNotFoundError id)
    ∧ totalCapacity (deleteNode s id true).1.nodes + n.storage_capacity_bytes =
        totalCapacity s.nodes
    ∧ (∀ c ∈ (deleteNode s id true).1.chunks, id ∉ c.replicas)
    ∧ (∀ c ∈ s.chunks, c.replicas = [id] → c ∉ (deleteNode s id true).1.chunks) := by
  have hdel : deleteNode s id true =
      (⟨removeNode s.nodes id, purgeChunksOfNode s.chunks id⟩, none) := by
    unfold deleteNode
    rw [hfind]
    simp
  have hnorep : ∀ c ∈ purgeChunksOfNode s.chunks id, id ∉ c.replicas := by
    intro c hc hidmem
    rw [purgeChunksOfNode, List.mem_filter, List.mem_map] at hc
    obtain ⟨⟨c₀, hc₀, rfl⟩, _⟩ := hc
    simp only [List.mem_filter] at hidmem
    simpa using hidmem.2
  refine ⟨by rw [hdel], ?_, ?_, ?_, ?_⟩
  · rw [hdel]
    unfold getNode findNode
    have : (removeNode s.nodes id).find? (fun m => m.node_id == id) = none := by
      apply List.find?_eq_none.mpr
      intro m hm
      rw [removeNode, List.mem_filter] at hm
      simpa using hm.2
    rw [this]
  · rw [hdel]
    have hperm := perm_cons_removeNode s.nodes id n hfind hnodup
    show totalCapacity (removeNode s.nodes id) + n.storage_capacity_bytes = _
    unfold totalCapacity
    rw [(hperm.map (fun m => m.storage_capacity_bytes)).sum_eq, List.map_cons,
      List.sum_cons]
    omega
  · rw [hdel]
    exact hnorep
  · intro c _ hrep hmem
    rw [hdel] at hmem
    exact hnorep c hmem (hrep ▸ List.mem_singleton_self id)

theorem claim_C3_force_delete_witness :
    findNode sampleState "node1" = some sampleNodeA
    ∧ (sampleState.nodes.map (fun m => m.node_id)).Nodup
    ∧ (deleteNode sampleState "node1" true).2 = none
    ∧ getNode (deleteNode sampleState "node1" true).1 "node1" =
        Except.error (RegistryError.NodeNotFoundError "node1") :=
  ⟨by decide, by decide,
   (claim_C3_force_delete sampleState "node1" sampleNodeA (by decide) (by decide)).1,
   (claim_C3_force_delete sampleState "node1" sampleNodeA (by decide) (by decide)).2.1⟩

/-- C5: the timeout is twice the 30 s heartbeat interval; an online node whose
last heartbeat is older than the timeout is flipped to offline by the sweep
tick with no caller action; the tick's metrics are a recompute over the new
registry snapshot; and the sweep does nothing but flip statuses to offline —
it returns no error to anyone (its very type carries no error component). -/
theorem claim_C5_heartbeat_timeout_sweep (s : SystemState) (nowMs : Nat) (n : Node)
    (hmem : n ∈ s.nodes) (honline : n.status = NodeStatus.online)
    (hstale : heartbeatTimeoutMs < nowMs - (n.last_heartbeat_at.getD 0)) :
    heartbeatTimeoutMs = 2 * heartbeatIntervalMs
    ∧ { n with status := NodeStatus.offline } ∈ (sweepTick nowMs s).1.nodes
    ∧ (sweepTick nowMs s).2 = recompute (sweepTick nowMs s).1.nodes
    ∧ (∀ m ∈ s.nodes, sweepNode nowMs heartbeatTimeoutMs m = m ∨
        sweepNode nowMs heartbeatTimeoutMs m = { m with status := NodeStatus.offline }) := by
  refine ⟨rfl, ?_, rfl, ?_⟩
  · have hflip : sweepNode nowMs heartbeatTimeoutMs n =
        { n with status := NodeStatus.offline } := by
      unfold sweepNode
      rw [if_pos]
      unfold isStale
      simp [honline, hstale]
    show { n with status := NodeStatus.offline } ∈
      s.nodes.map (sweepNode nowMs heartbeatTimeoutMs)
    exact List.mem_map.mpr ⟨n, hmem, hflip⟩
  · intro m _
    unfold sweepNode
    by_cases hm : isStale nowMs heartbeatTimeoutMs m = true
    · right
      rw [if_pos hm]
    · left
      rw [if_neg hm]

theorem claim_C5_heartbeat_timeout_sweep_witness :
    sampleNodeA ∈ sampleState.nodes
    ∧ sampleNodeA.status = NodeStatus.online
    ∧ heartbeatTimeoutMs < 100000 - (sampleNodeA.last_heartbeat_at.getD 0)
    ∧ { sampleNodeA with status := NodeStatus.offline } ∈
        (sweepTick 100000 sampleState).1.nodes :=
  ⟨by decide, by decide, by decide,
   (claim_C5_heartbeat_timeout_sweep sampleState 100000 sampleNodeA
      (by decide) (by decide) (by decide)).2.1⟩

/-- C7: a successful `StartNode` on an existing node changes nothing — status
and every other descriptor field are returned as they were — and across every
operation of the control plane, a node that is online after the step was
either already online before it or the step was a heartbeat receipt: the only
transition into online is a heartbeat. -/
theorem claim_C7_start_does_not_set_online (s : SystemState) (id host : String)
    (port capacityBytes : Nat) (n : Node) (hfind : findNode s id = some n) :
    startNode s id host port capacityBytes = (s, none)
    ∧ ∀ (op : AdminOp) (m : Node), m ∈ (applyOp s op).1.nodes →
        m.status = NodeStatus.online →
        isHeartbeatOp op = true ∨
          ∃ m₀, m₀ ∈ s.nodes ∧ m₀.node_id = m.node_id ∧
            m₀.status = NodeStatus.online := by
  constructor
  · unfold startNode
    rw [hfind]
  · intro op m hm hst
    cases op with
    | create cid chost cport ccap cnow =>
        right
        simp only [applyOp, createNode] at hm
        split at hm
        · exact ⟨m, hm, rfl, hst⟩
        · simp only [List.mem_append, List.mem_singleton] at hm
          cases hm with
          | inl h => exact ⟨m, h, rfl, hst⟩
          | inr h =>
              rw [h] at hst
              exact NodeStatus.noConfusion hst
    | start sid shost sport scap =>
        right
        simp only [applyOp, startNode] at hm
        split at hm
        · exact ⟨m, hm, rfl, hst⟩
        · exact ⟨m, hm, rfl, hst⟩
    | stop pid =>
        right
        simp only [applyOp, stopNode] at hm
        split at hm
        · exact ⟨m, hm, rfl, hst⟩
        · simp only [List.mem_map] at hm
          obtain ⟨m₀, hm₀, hf⟩ := hm
          by_cases hid : (m₀.node_id == pid) = true
          · rw [if_pos hid] at hf
            rw [← hf] at hst
            exact NodeStatus.noConfusion hst
          · rw [if_neg hid] at hf
            rw [← hf] at hst ⊢
            exact ⟨m₀, hm₀, rfl, hst⟩
    | delete did force =>
        right
        simp only [applyOp, deleteNode] at hm
        split at hm
        · exact ⟨m, hm, rfl, hst⟩
        · split at hm
          · exact ⟨m, hm, rfl, hst⟩
          · have : m ∈ s.nodes := (List.filter_sublist s.nodes).subset hm
            exact ⟨m, this, rfl, hst⟩
    | heartbeat hid hnow =>
        left
        rfl
    | sweepAt snow =>
        right
        simp only [applyOp, sweep, List.mem_map] at hm
        obtain ⟨m₀, hm₀, hf⟩ := hm
        unfold sweepNode at hf
        by_cases hsm : isStale snow heartbeatTimeoutMs m₀ = true
        · rw [if_pos hsm] at hf
          rw [← hf] at hst
          exact NodeStatus.noConfusion hst
        · rw [if_neg hsm] at hf
          rw [← hf] at hst ⊢
          exact ⟨m₀, hm₀, rfl, hst⟩

theorem claim_C7_start_does_not_set_online_witness :
    findNode sampleState "node1" = some sampleNodeA
    ∧ startNode sampleState "node1" "localhost" 9001 2048 = (sampleState, none) :=
  ⟨by decide,
   (claim_C7_start_does_not_set_online sampleState "node1" "localhost" 9001 2048
      sampleNodeA (by decide)).1⟩

/-- C6: `PlaceChunk` keeps only online candidates with enough free space,
higher health always ranks first, and (with unique registry ids) a successful
placement returns exactly `replication_factor` distinct node ids, each backed
by an online registry node with free space for the chunk; it fails with
`InsufficientCapacityError` precisely when fewer than `replication_factor`
eligible nodes exist. -/
theorem claim_C6_placeChunk (s : SystemState) (sizeBytes rf : Nat)
    (hnodup : (s.nodes.map (fun n => n.node_id)).Nodup) :
    (∀ ids, placeChunk s sizeBytes rf = Except.ok ids →
        ids.length = rf ∧ ids.Nodup ∧
        ∀ i ∈ ids, ∃ n, n ∈ s.nodes ∧ n.node_id = i ∧
          n.status = NodeStatus.online ∧ sizeBytes ≤ freeBytes n)
    ∧ ((s.nodes.filter (eligibleFor sizeBytes)).length < rf ↔
        placeChunk s sizeBytes rf = Except.error RegistryError.InsufficientCapacityError)
    ∧ (∀ a b : Node, b.health_score < a.health_score → ranksBefore a b = true) := by
  refine ⟨?_, ⟨?_, ?_⟩, ?_⟩
  · intro ids hok
    unfold placeChunk at hok
    dsimp only at hok
    split at hok
    · exact absurd hok (by simp)
    · rename_i hge
      rw [Except.ok.injEq] at hok
      subst hok
      have hsub : ((s.nodes.filter (eligibleFor sizeBytes)).mergeSort rankLE).take rf ⊆
          s.nodes.filter (eligibleFor sizeBytes) := fun x hx =>
        List.mem_mergeSort.mp ((List.take_sublist _ _).subset hx)
      refine ⟨?_, ?_, ?_⟩
      · rw [List.length_map, List.length_take, List.length_mergeSort]
        omega
      · have h1 : ((s.nodes.filter (eligibleFor sizeBytes)).map
            (fun n => n.node_id)).Nodup :=
          ((List.filter_sublist s.nodes).map (fun n => n.node_id)).nodup hnodup
        have h2 : (((s.nodes.filter (eligibleFor sizeBytes)).mergeSort rankLE).map
            (fun n => n.node_id)).Nodup :=
          ((List.mergeSort_perm (s.nodes.filter (eligibleFor sizeBytes)) rankLE).map
            (fun n => n.node_id)).nodup_iff.mpr h1
        exact ((List.take_sublist rf
          ((s.nodes.filter (eligibleFor sizeBytes)).mergeSort rankLE)).map
            (fun n => n.node_id)).nodup h2
      · intro i hi
        rw [List.mem_map] at hi
        obtain ⟨n, hn, rfl⟩ := hi
        have hcand := hsub hn
        rw [List.mem_filter] at hcand
        have helig := hcand.2
        unfold eligibleFor at helig
        rw [Bool.and_eq_true] at helig
        exact ⟨n, hcand.1, rfl, by simpa using helig.1, of_decide_eq_true helig.2⟩
  · intro h
    unfold placeChunk
    rw [if_pos h]
  · intro h
    by_contra hlt
    unfold placeChunk at h
    rw [if_neg hlt] at h
    exact Except.noConfusion h
  · intro a b hh
    unfold ranksBefore
    simp [hh]

theorem claim_C6_placeChunk_witness :
    (sampleState.nodes.map (fun n => n.node_id)).Nodup
    ∧ ((sampleState.nodes.filter (eligibleFor 64)).length < 3 ↔
        placeChunk sampleState 64 3 =
          Except.error RegistryError.InsufficientCapacityError) :=
  ⟨by decide, (claim_C6_placeChunk sampleState 64 3 (by decide)).2.1⟩

end UniHomes
